import Mathlib

/-!
Verification development for the CursorBlur overlay program
(src/CursorBlur.cpp).

Shallow embedding conventions:
* machine integers (LONG screen coordinates, int deltas) are modelled as ℤ;
  the coordinates involved are small, so no wrap-around modelling is needed;
* `std::chrono::steady_clock::time_point` instants are modelled as ℚ, measured
  in milliseconds; `duration_cast<milliseconds>(..).count()` is truncation
  toward zero (`truncQ`);
* `float` quantities (gSensitivity, gTrailFadeMs, fade, speedFactor, alpha)
  are modelled as exact rationals; the float literal `0.03f` is modelled as
  `3/100`, etc.;
* `sqrtf`, whose result is an irrational real in general, is modelled as an
  explicit oracle parameter `fsqrt : ℚ → ℚ` standing for the rational value
  the float square root returns; theorems quantify over it or hypothesise
  only what the code guarantees (`1 ≤ fsqrt distSq` when `1 ≤ distSq`);
* GDI allocation outcomes (CreateDIBSection) are explicit boolean inputs;
* `std::deque<Sample>` is a `List Sample`, front = oldest = head.
-/

namespace CursorBlur

/-- Screen coordinates of a `POINT` (LONG x, y). -/
structure Point where
  x : ℤ
  y : ℤ
  deriving DecidableEq

/-- `struct Sample { POINT pt; steady_clock::time_point t; }`; the instant is
rational milliseconds. -/
structure Sample where
  pt : Point
  t : ℚ
  deriving DecidableEq

/-- The launch-argument globals of CursorBlur.cpp:
`gSensitivity`, `gTrailFadeMs`, `gTrailMaxAlpha`, `TintR/G/B`. -/
structure Config where
  sensitivity : ℚ
  fade : ℚ
  maxAlpha : ℕ
  tintR : ℕ
  tintG : ℕ
  tintB : ℕ
  deriving DecidableEq

/-- Default values of the globals (lines 15-21 of the source);
`0.03f` is modelled as the exact rational `3/100`. -/
def defaultConfig : Config :=
  { sensitivity := 3 / 100, fade := 50, maxAlpha := 10,
    tintR := 255, tintG := 255, tintB := 255 }

/-- `constexpr int kMaxTrailSize = 500`. -/
def kMaxTrailSize : ℕ := 500

/-- `duration_cast<milliseconds>` on a rational millisecond duration:
C++ duration_cast truncates toward zero. -/
def truncQ (q : ℚ) : ℤ :=
  if 0 ≤ q then ⌊q⌋ else -⌊-q⌋

/-- `std::lround`: round half away from zero. -/
def lroundQ (x : ℚ) : ℤ :=
  if 0 ≤ x then ⌊x + 1 / 2⌋ else -⌊-x + 1 / 2⌋

/-- `std::clamp v lo hi` (for `lo ≤ hi`). -/
def clampQ (lo hi v : ℚ) : ℚ := min hi (max lo v)

/-- Integer squared distance `dx*dx + dy*dy` between two points
(lines 192-196 of `UpdateTrail`). -/
def sqDist (a b : Point) : ℤ :=
  (a.x - b.x) * (a.x - b.x) + (a.y - b.y) * (a.y - b.y)

/-- The append decision of `UpdateTrail` (lines 188-197):
`add = trail.empty()`, otherwise squared displacement from `trail.back()`
is at least 1. -/
def shouldAdd (trail : List Sample) (p : Point) : Bool :=
  match trail.getLast? with
  | none => true
  | some s => decide (1 ≤ sqDist p s.pt)

/-- The append-and-capacity phase of `UpdateTrail` (lines 199-204):
push the new sample at the back and, if the size now exceeds
`kMaxTrailSize`, pop the front. -/
def trailAddPhase (trail : List Sample) (p : Point) (now : ℚ) : List Sample :=
  if shouldAdd trail p then
    let t2 := trail ++ [⟨p, now⟩]
    if kMaxTrailSize < t2.length then t2.tail else t2
  else trail

/-- The age-eviction loop of `UpdateTrail` (lines 206-208, also inlined in the
hidden-pointer branch of the main loop, lines 574-577): pop the front while
the truncated millisecond age of the front sample exceeds
`gTrailFadeMs + 50`. -/
def evictOld (cfg : Config) (now : ℚ) : List Sample → List Sample
  | [] => []
  | s :: rest =>
    if cfg.fade + 50 < (truncQ (now - s.t) : ℚ) then evictOld cfg now rest
    else s :: rest

/-- `UpdateTrail(trail, ptNow, now)` (lines 185-209). -/
def updateTrail (cfg : Config) (trail : List Sample) (p : Point) (now : ℚ) :
    List Sample :=
  evictOld cfg now (trailAddPhase trail p now)

/-- The trail-relevant part of one main-loop tick (lines 547-581): the sampled
cursor position is fed to `UpdateTrail` unconditionally; when
`GetCursorInfo` fails, the cursor is not `CURSOR_SHOWING`, or the handle is
null (`visible = false`), an additional front-eviction pass runs with a fresh
clock reading `tEvict`. -/
def tickTrail (cfg : Config) (trail : List Sample) (p : Point)
    (visible : Bool) (tNow tEvict : ℚ) : List Sample :=
  let t1 := updateTrail cfg trail p tNow
  if visible then t1 else evictOld cfg tEvict t1

/-- `struct CursorVisual` (lines 39-43); the `HCURSOR` handle is an opaque
identity modelled as ℕ (0 = nullptr). -/
structure CursorVisual where
  hCur : ℕ
  width : ℤ
  height : ℤ
  hotX : ℤ
  hotY : ℤ
  deriving DecidableEq

/-- The data `RefreshCursorVisual` extracts from a successful
`GetIconInfo`/`GetObject` pair: which bitmaps the ICONINFO carried, the
queried bitmap extents, and the hotspot. -/
structure IconGeom where
  hasColor : Bool
  hasMask : Bool
  bmWidth : ℤ
  bmHeight : ℤ
  hotX : ℤ
  hotY : ℤ
  deriving DecidableEq

/-- `RefreshCursorVisual(cv, ci)` (lines 155-183). `query = none` models
`GetIconInfo` failing; `some g` a successful query. On a changed handle the
cached handle is updated first (line 160); geometry is touched only inside
the success branch. A mask-only glyph has its reported height halved
(C integer division, truncation toward zero). -/
def refreshCursorVisual (cv : CursorVisual) (hCursor : ℕ)
    (query : Option IconGeom) : CursorVisual :=
  if hCursor = cv.hCur then cv
  else
    match query with
    | none => { cv with hCur := hCursor }
    | some g =>
      let bmW : ℤ := if g.hasColor then g.bmWidth
                     else if g.hasMask then g.bmWidth else 0
      let bmH : ℤ := if g.hasColor then g.bmHeight
                     else if g.hasMask then Int.tdiv g.bmHeight 2 else 0
      { hCur := hCursor,
        width := if bmW ≠ 0 then bmW else 32,
        height := if bmH ≠ 0 then bmH else 32,
        hotX := g.hotX, hotY := g.hotY }

/-- The virtual-screen rectangle. -/
structure Rect where
  left : ℤ
  top : ℤ
  right : ℤ
  bottom : ℤ
  deriving DecidableEq

/-- One `AlphaBlend` call issued by `DrawTrail` (lines 331-333): destination
origin, glyph extent, and the constant source alpha of the
`BLENDFUNCTION`. -/
structure Blend where
  dstX : ℤ
  dstY : ℤ
  w : ℤ
  h : ℤ
  alpha : ℤ
  deriving DecidableEq

/-- The static tinted-glyph cache of `DrawTrail`
(`sTintBMP`/`sTintDC`/`sLastCursor`/`sLastW`/`sLastH`, lines 24-29):
`valid` is `sTintBMP != nullptr && sTintDC != nullptr`. -/
structure TintCache where
  valid : Bool
  hCur : ℕ
  w : ℤ
  h : ℤ
  deriving DecidableEq

/-- The initial values of the cache statics: null bitmap, null cursor,
zero extents. -/
def initialTintCache : TintCache := ⟨false, 0, 0, 0⟩

/-- The rebuild condition of line 242:
`!sTintBMP || !sTintDC || cv.hCur != sLastCursor || cv.width != sLastW ||
cv.height != sLastH`. -/
def needRebuild (c : TintCache) (cv : CursorVisual) : Bool :=
  !c.valid || !(cv.hCur == c.hCur) || !(cv.width == c.w) || !(cv.height == c.h)

/-- Cache-key mismatch as the spec words it: "the glyph identity or the glyph
dimensions differ from the cached key". This is the spec-side comparand for
claim C7; the source-side condition is `needRebuild`. -/
def specCacheKeyDiffers (c : TintCache) (cv : CursorVisual) : Bool :=
  !(cv.hCur == c.hCur) || !(cv.width == c.w) || !(cv.height == c.h)

/-- The cache maintenance performed by one `DrawTrail` call (lines 242-282):
when the rebuild condition holds, the key statics are overwritten with the
live glyph (lines 244-246) and the bitmap is recreated; `allocOk` tells
whether `CreateDIBSection` succeeded (on failure the frame returns early with
a null `sTintBMP`, line 264-265). Returns the new cache state and whether the
rebuild branch was taken. -/
def tintCacheStep (c : TintCache) (cv : CursorVisual) (allocOk : Bool) :
    TintCache × Bool :=
  if needRebuild c cv then
    ({ valid := allocOk, hCur := cv.hCur, w := cv.width, h := cv.height }, true)
  else (c, false)

/-- Number of rebuild-branch entries over `n` consecutive `DrawTrail` calls
with the same glyph and successful allocations. -/
def countRebuilds : TintCache → CursorVisual → ℕ → ℕ
  | _, _, 0 => 0
  | c, cv, n + 1 =>
    let r := tintCacheStep c cv true
    (if r.2 then 1 else 0) + countRebuilds r.1 cv n

/-- One 32-bit pixel of the tint bitmap, in BGRA byte order
(`p[0]=blue, p[1]=green, p[2]=red, p[3]=alpha`). -/
structure Pixel where
  b : ℕ
  g : ℕ
  r : ℕ
  a : ℕ
  deriving DecidableEq

/-- The per-pixel tint of lines 277-280: each color channel is multiplied by
the corresponding tint channel and divided by 255 (integer division); the
alpha byte `p[3]` is not written. -/
def tintPixel (tr tg tb : ℕ) (p : Pixel) : Pixel :=
  { b := p.b * tb / 255, g := p.g * tg / 255, r := p.r * tr / 255, a := p.a }

/-- The tint pass over the whole glyph bitmap (loop of lines 275-281). -/
def tintSurface (tr tg tb : ℕ) (px : List Pixel) : List Pixel :=
  px.map (tintPixel tr tg tb)

/-- `fade` of line 322:
`max(0, 1 - (age0 + age0*t*0.1) / gTrailFadeMs)`. -/
def fadeQ (cfg : Config) (age0 t : ℚ) : ℚ :=
  max 0 (1 - (age0 + age0 * t * (1 / 10)) / cfg.fade)

/-- `speedFactor` of line 323: `clamp(dist * gSensitivity, 0, 1)`. -/
def speedQ (cfg : Config) (dist : ℚ) : ℚ :=
  clampQ 0 1 (dist * cfg.sensitivity)

/-- The clamped real-valued alpha of line 324 before the BYTE cast:
`clamp(gTrailMaxAlpha * fade * speedFactor, 0, 255)`. -/
def stepAlphaQ (cfg : Config) (dist age0 t : ℚ) : ℚ :=
  clampQ 0 255 ((cfg.maxAlpha : ℚ) * fadeQ cfg age0 t * speedQ cfg dist)

/-- One iteration of the interpolation loop (lines 313-334) for step `j`:
`t = j * (1/steps)`, the interpolated point is rounded with `lround`, the
BYTE alpha is the truncation of the clamped float alpha, and the blend is
skipped when `a < 3`. -/
def stepBlend (cfg : Config) (cv : CursorVisual) (vs : Rect) (s0 : Sample)
    (dx dy dist : ℚ) (steps : ℕ) (age0 : ℚ) (j : ℕ) : Option Blend :=
  let t : ℚ := (j : ℚ) * (1 / (steps : ℚ))
  let px : ℤ := lroundQ ((s0.pt.x : ℚ) + dx * t)
  let py : ℤ := lroundQ ((s0.pt.y : ℚ) + dy * t)
  let a : ℤ := ⌊stepAlphaQ cfg dist age0 t⌋
  if a < 3 then none
  else some { dstX := px - vs.left - cv.hotX, dstY := py - vs.top - cv.hotY,
              w := cv.width, h := cv.height, alpha := a }

/-- `age0` of lines 297-298: the truncated millisecond age of the older
sample of a pair, as the float the code compares with. -/
def pairAge0 (s0 : Sample) (now : ℚ) : ℚ := (truncQ (now - s0.t) : ℚ)

/-- `distSq` of lines 302-304: squared float distance between the two samples
of a pair, computed from the integer coordinate deltas. -/
def pairDistSq (s0 s1 : Sample) : ℚ :=
  ((s1.pt.x : ℚ) - (s0.pt.x : ℚ)) * ((s1.pt.x : ℚ) - (s0.pt.x : ℚ)) +
    ((s1.pt.y : ℚ) - (s0.pt.y : ℚ)) * ((s1.pt.y : ℚ) - (s0.pt.y : ℚ))

/-- `steps` of lines 308-309: `ceil` of the `sqrtf` result on the squared
distance. -/
def pairSteps (s0 s1 : Sample) (fsqrt : ℚ → ℚ) : ℕ :=
  (⌈fsqrt (pairDistSq s0 s1)⌉).toNat

/-- The blends issued for one adjacent sample pair `(s0, s1)` with `s0` the
older sample (lines 294-334), tagged with the inner-loop index `j`. The pair
is skipped when the truncated millisecond age of `s0` exceeds `gTrailFadeMs`
or the squared float distance is below 1; otherwise `dist = fsqrt distSq`
(the value `sqrtf` returns), `steps = ceil dist`, and `j` runs from `steps`
down to `0`. -/
def drawPair (cfg : Config) (cv : CursorVisual) (vs : Rect)
    (s0 s1 : Sample) (now : ℚ) (fsqrt : ℚ → ℚ) : List (ℕ × Blend) :=
  if cfg.fade < pairAge0 s0 now then []
  else if pairDistSq s0 s1 < 1 then []
  else
    (List.range (pairSteps s0 s1 fsqrt + 1)).reverse.filterMap
      (fun j => Option.map (fun b => (j, b))
        (stepBlend cfg cv vs s0 ((s1.pt.x : ℚ) - (s0.pt.x : ℚ))
          ((s1.pt.y : ℚ) - (s0.pt.y : ℚ)) (fsqrt (pairDistSq s0 s1))
          (pairSteps s0 s1 fsqrt) (pairAge0 s0 now) j))

/-- Concatenation helper for the outer loop. -/
def listFlat {α β : Type} (f : α → List β) : List α → List β
  | [] => []
  | a :: l => f a ++ listFlat f l

/-- The full blend sequence of one `DrawTrail` call (lines 291-335), in issue
order, each blend tagged with the outer-loop pair index `i` and the
inner-loop step index `j`. The outer loop runs
`for (int i = trail.size() - 2; i >= 0; --i)` with `s0 = trail[i]`,
`s1 = trail[i+1]` — the deque is oldest-first, so `i` descends from the
newest adjacent pair to the oldest. -/
def drawTrailBlends (cfg : Config) (cv : CursorVisual) (vs : Rect)
    (trail : List Sample) (now : ℚ) (fsqrt : ℚ → ℚ) : List (ℕ × ℕ × Blend) :=
  listFlat
    (fun i =>
      (drawPair cfg cv vs (trail.getD i ⟨⟨0, 0⟩, 0⟩)
          (trail.getD (i + 1) ⟨⟨0, 0⟩, 0⟩) now fsqrt).map
        (fun jb => (i, jb.1, jb.2)))
    (List.range (trail.length - 1)).reverse

/-- `'0' ≤ c && c ≤ '9'`. -/
def isDigit (c : Char) : Bool := decide (48 ≤ c.toNat ∧ c.toNat ≤ 57)

/-- Hexadecimal digit test for `swscanf %x`. -/
def isHexDigit (c : Char) : Bool :=
  isDigit c || decide (97 ≤ c.toNat ∧ c.toNat ≤ 102) ||
    decide (65 ≤ c.toNat ∧ c.toNat ≤ 70)

/-- Value of a hexadecimal digit. -/
def hexVal (c : Char) : ℕ :=
  if isDigit c then c.toNat - 48
  else if 97 ≤ c.toNat then c.toNat - 87
  else c.toNat - 55

/-- Consume a maximal run of decimal digits, accumulating their value;
returns the value and the unconsumed remainder. -/
def digitsVal : List Char → ℕ → ℕ × List Char
  | [], acc => (acc, [])
  | c :: r, acc =>
    if isDigit c then digitsVal r (acc * 10 + (c.toNat - 48)) else (acc, c :: r)

/-- Value of a fractional digit run: `.d₁d₂… = (d₁ + (d₂ + …)/10)/10`. -/
def fracVal : List Char → ℚ
  | [] => 0
  | c :: r =>
    if isDigit c then (((c.toNat - 48 : ℕ) : ℚ) + fracVal r) / 10 else 0

/-- Optional leading sign. -/
def splitSign (s : List Char) : Bool × List Char :=
  match s with
  | '-' :: r => (true, r)
  | '+' :: r => (false, r)
  | _ => (false, s)

/-- The optional fractional part following the integer digits: a leading
`.` followed by a digit run. -/
def fracPart : List Char → ℚ
  | '.' :: r => fracVal r
  | _ => 0

/-- `_wtof` on a whitespace-free token: optional sign, decimal digits,
optional fractional part; an unparsable token yields 0. (Exponent and
hexadecimal float forms are not modelled; no claim depends on them.) -/
def wtofQ (s : List Char) : ℚ :=
  let sr := splitSign s
  let ir := digitsVal sr.2 0
  let v : ℚ := (ir.1 : ℚ) + fracPart ir.2
  if sr.1 then -v else v

/-- `_wtoi` on a whitespace-free token: optional sign and decimal digits;
an unparsable token yields 0. -/
def wtoiZ (s : List Char) : ℤ :=
  let sr := splitSign s
  let v : ℤ := ((digitsVal sr.2 0).1 : ℤ)
  if sr.1 then -v else v

/-- Whether the token has any numeric head after an optional sign — exactly
when `_wtof`/`_wtoi` extract a (possibly zero) number rather than failing. -/
def hasNumHead (s : List Char) : Bool :=
  match (splitSign s).2 with
  | [] => false
  | c :: r =>
    isDigit c ||
      (c == '.' &&
        match r with
        | [] => false
        | d :: _ => isDigit d)

/-- Leading hex-digit run for `swscanf %x`: `none` when the first character
is not a hexadecimal digit (scanf matching failure, conversion count 0). -/
def whexNat (s : List Char) : Option ℕ :=
  match s with
  | [] => none
  | c :: r =>
    if isHexDigit c then
      some ((digitsValHex r (hexVal c)))
    else none
where
  /-- Accumulate the hex digit run. -/
  digitsValHex : List Char → ℕ → ℕ
    | [], acc => acc
    | c :: r, acc =>
      if isHexDigit c then digitsValHex r (acc * 16 + hexVal c) else acc

/-- Strip the optional leading `#` of a color value (line 441). -/
def stripHash (s : List Char) : List Char :=
  match s with
  | '#' :: r => r
  | _ => s

/-- `ParseCommandValue` applied to the value of a recognized
`sensitivity|s` key (lines 399-400 with the bounds of line 433):
`gSensitivity = clamp(_wtof(val), 0.001f, 1.0f)`. -/
def applySensitivity (cfg : Config) (val : List Char) : Config :=
  { cfg with sensitivity := clampQ (1 / 1000) 1 (wtofQ val) }

/-- `ParseCommandValue` for `fade|f` (bounds of line 434):
`gTrailFadeMs = clamp(_wtof(val), 1.f, 1000.f)`. -/
def applyFade (cfg : Config) (val : List Char) : Config :=
  { cfg with fade := clampQ 1 1000 (wtofQ val) }

/-- `ParseCommandValue` for `alpha|a` (lines 401-402 with bounds of
line 435): `gTrailMaxAlpha = (BYTE)clamp(_wtoi(val), 1, 255)`. -/
def applyAlpha (cfg : Config) (val : List Char) : Config :=
  { cfg with maxAlpha := (min 255 (max 1 (wtoiZ val))).toNat }

/-- The custom color parser for `color|c` (lines 437-448): strip an optional
`#`, read a hex number; on scanf failure the tint globals keep their prior
values, otherwise `TintR = (rgb >> 16) & 0xFF` etc. -/
def applyColor (cfg : Config) (val : List Char) : Config :=
  match whexNat (stripHash val) with
  | some rgb =>
    { cfg with tintR := rgb / 65536 % 256, tintG := rgb / 256 % 256,
               tintB := rgb % 256 }
  | none => cfg

/-- A configuration used for concrete runs: `sensitivity 1`, `fade 50`,
`alpha 255`, no tint. All values lie inside the command-line clamp ranges. -/
def cfgX : Config := ⟨1, 50, 255, 255, 255, 255⟩

/-- A concrete 32x32 glyph with hotspot (0,0). -/
def cvX : CursorVisual := ⟨1, 32, 32, 0, 0⟩

/-- A concrete virtual-screen rectangle. -/
def vsX : Rect := ⟨0, 0, 1920, 1080⟩

/-- Three samples along the 3-4-5 direction, all captured at t = 0; adjacent
squared distances are 25, so `sqrtf` returns exactly 5. -/
def trailX : List Sample := [⟨⟨0, 0⟩, 0⟩, ⟨⟨3, 4⟩, 0⟩, ⟨⟨6, 8⟩, 0⟩]

/-- The value `sqrtf` returns on the squared distances occurring in `trailX`:
`sqrtf(25.f) = 5.0f` exactly. -/
def fsqrtX : ℚ → ℚ := fun q => if q = 25 then 5 else 1

/-! ## Helper lemmas -/

theorem evictOld_suffix (cfg : Config) (now : ℚ) (l : List Sample) :
    evictOld cfg now l <:+ l := by
  induction l with
  | nil => exact List.suffix_rfl
  | cons s rest ih =>
    rw [evictOld]
    split
    · exact ih.trans (List.suffix_cons s rest)
    · exact List.suffix_rfl

theorem evictOld_cases (cfg : Config) (now : ℚ) (l : List Sample) :
    evictOld cfg now l = [] ∨
      ∃ f rest, evictOld cfg now l = f :: rest ∧
        ¬ (cfg.fade + 50 < (truncQ (now - f.t) : ℚ)) := by
  induction l with
  | nil => exact Or.inl rfl
  | cons s rest ih =>
    rw [evictOld]
    split
    · exact ih
    · exact Or.inr ⟨s, rest, rfl, by assumption⟩

theorem shouldAdd_of_moved (trail : List Sample) (p : Point)
    (h : trail = [] ∨ ∃ s, trail.getLast? = some s ∧ 1 ≤ sqDist p s.pt) :
    shouldAdd trail p = true := by
  rcases h with rfl | ⟨s, hl, hd⟩
  · rfl
  · rw [shouldAdd, hl]
    exact decide_eq_true hd

theorem shouldAdd_of_still (trail : List Sample) (p : Point)
    (h : ∃ s, trail.getLast? = some s ∧ sqDist p s.pt < 1) :
    shouldAdd trail p = false := by
  obtain ⟨s, hl, hd⟩ := h
  rw [shouldAdd, hl]
  exact decide_eq_false (not_le.2 hd)

theorem trailAddPhase_eq (trail : List Sample) (p : Point) (now : ℚ) :
    trailAddPhase trail p now =
      if shouldAdd trail p then
        if kMaxTrailSize < (trail ++ [(⟨p, now⟩ : Sample)]).length
        then (trail ++ [(⟨p, now⟩ : Sample)]).tail
        else trail ++ [(⟨p, now⟩ : Sample)]
      else trail := rfl

theorem trailAddPhase_of_add (trail : List Sample) (p : Point) (now : ℚ)
    (h : shouldAdd trail p = true) :
    ∃ k ≤ 1, trailAddPhase trail p now
      = (trail ++ [(⟨p, now⟩ : Sample)]).drop k := by
  rw [trailAddPhase_eq, if_pos h]
  by_cases hlen : kMaxTrailSize < (trail ++ [(⟨p, now⟩ : Sample)]).length
  · exact ⟨1, le_refl 1, by rw [if_pos hlen, List.drop_one]⟩
  · exact ⟨0, Nat.zero_le 1, by rw [if_neg hlen, List.drop_zero]⟩

theorem trailAddPhase_of_not_add (trail : List Sample) (p : Point) (now : ℚ)
    (h : shouldAdd trail p = false) :
    trailAddPhase trail p now = trail := by
  rw [trailAddPhase_eq, h]
  simp

theorem trailAddPhase_cases (trail : List Sample) (p : Point) (now : ℚ) :
    trailAddPhase trail p now = trail ∨
      ∃ k ≤ 1, trailAddPhase trail p now
        = (trail ++ [(⟨p, now⟩ : Sample)]).drop k := by
  by_cases h : shouldAdd trail p
  · exact Or.inr (trailAddPhase_of_add trail p now h)
  · exact Or.inl (trailAddPhase_of_not_add trail p now (by simpa using h))

theorem trailAddPhase_length (trail : List Sample) (p : Point) (now : ℚ)
    (h : trail.length ≤ kMaxTrailSize) :
    (trailAddPhase trail p now).length ≤ kMaxTrailSize := by
  rw [trailAddPhase_eq]
  split
  · split
    · rename_i hlen
      simp only [List.length_tail, List.length_append, List.length_cons,
        List.length_nil]
      omega
    · rename_i hlen
      simp only [List.length_append, List.length_cons, List.length_nil]
        at hlen ⊢
      omega
  · exact h

theorem sqDist_self (p : Point) : sqDist p p = 0 := by
  simp [sqDist]

/-! ## Claims -/

/-- C1: `UpdateTrail` appends a new sample exactly when the trail is empty or
the integer squared distance from the most recent retained sample is at
least 1; with displacement 0 the append phase leaves the deque unchanged and
the whole update cannot grow the buffer. -/
theorem updateTrail_append_iff (cfg : Config) (trail : List Sample)
    (p : Point) (now : ℚ) :
    ((trail = [] ∨ ∃ s, trail.getLast? = some s ∧ 1 ≤ sqDist p s.pt) →
      ∃ k ≤ 1, trailAddPhase trail p now
        = (trail ++ [(⟨p, now⟩ : Sample)]).drop k) ∧
    ((∃ s, trail.getLast? = some s ∧ sqDist p s.pt < 1) →
      trailAddPhase trail p now = trail) ∧
    (∀ s, trail.getLast? = some s → p = s.pt →
      (updateTrail cfg trail p now).length ≤ trail.length) := by
  refine ⟨fun h => trailAddPhase_of_add trail p now (shouldAdd_of_moved trail p h),
    fun h => trailAddPhase_of_not_add trail p now (shouldAdd_of_still trail p h),
    fun s hl hp => ?_⟩
  have h0 : trailAddPhase trail p now = trail :=
    trailAddPhase_of_not_add trail p now
      (shouldAdd_of_still trail p ⟨s, hl, by rw [hp, sqDist_self]; norm_num⟩)
  rw [updateTrail, h0]
  exact (evictOld_suffix cfg now trail).length_le

/-- C1 witness: on the singleton trail `[((0,0), 0)]` a displaced input
`(1,0)` is appended, a stationary input `(0,0)` is not, and the stationary
full update does not grow the buffer. -/
theorem updateTrail_append_iff_witness :
    (∃ k ≤ 1, trailAddPhase [⟨⟨0, 0⟩, 0⟩] ⟨1, 0⟩ 1
        = (([⟨⟨0, 0⟩, 0⟩] : List Sample) ++ [(⟨⟨1, 0⟩, 1⟩ : Sample)]).drop k) ∧
    trailAddPhase [⟨⟨0, 0⟩, 0⟩] ⟨0, 0⟩ 1 = [(⟨⟨0, 0⟩, 0⟩ : Sample)] ∧
    (updateTrail defaultConfig [⟨⟨0, 0⟩, 0⟩] ⟨0, 0⟩ 1).length ≤ 1 :=
  ⟨(updateTrail_append_iff defaultConfig [⟨⟨0, 0⟩, 0⟩] ⟨1, 0⟩ 1).1
      (Or.inr ⟨⟨⟨0, 0⟩, 0⟩, rfl, by norm_num [sqDist]⟩),
   (updateTrail_append_iff defaultConfig [⟨⟨0, 0⟩, 0⟩] ⟨0, 0⟩ 1).2.1
      ⟨⟨⟨0, 0⟩, 0⟩, rfl, by norm_num [sqDist]⟩,
   (updateTrail_append_iff defaultConfig [⟨⟨0, 0⟩, 0⟩] ⟨0, 0⟩ 1).2.2
      ⟨⟨0, 0⟩, 0⟩ rfl rfl⟩

/-- C3: starting from a trail of at most 500 samples, `UpdateTrail` keeps the
size at most 500, and the result is a suffix of the old trail with the new
sample possibly appended — every eviction removes the front (oldest) entry
and the insertion order of the remainder is preserved. -/
theorem updateTrail_capacity (cfg : Config) (trail : List Sample)
    (p : Point) (now : ℚ) (h : trail.length ≤ 500) :
    (updateTrail cfg trail p now).length ≤ 500 ∧
      (updateTrail cfg trail p now <:+ trail ++ [(⟨p, now⟩ : Sample)] ∨
        updateTrail cfg trail p now <:+ trail) := by
  constructor
  · exact le_trans
      (evictOld_suffix cfg now (trailAddPhase trail p now)).length_le
      (trailAddPhase_length trail p now h)
  · rcases trailAddPhase_cases trail p now with he | ⟨k, _, he⟩
    · right
      rw [updateTrail, he]
      exact evictOld_suffix cfg now trail
    · left
      rw [updateTrail, he]
      exact (evictOld_suffix cfg now _).trans (List.drop_suffix k _)

/-- C3 witness at a concrete one-sample trail. -/
theorem updateTrail_capacity_witness :
    (updateTrail defaultConfig [⟨⟨0, 0⟩, 0⟩] ⟨1, 1⟩ 5).length ≤ 500 ∧
      (updateTrail defaultConfig [⟨⟨0, 0⟩, 0⟩] ⟨1, 1⟩ 5
          <:+ ([⟨⟨0, 0⟩, 0⟩] : List Sample) ++ [⟨⟨1, 1⟩, 5⟩] ∨
        updateTrail defaultConfig [⟨⟨0, 0⟩, 0⟩] ⟨1, 1⟩ 5 <:+ [⟨⟨0, 0⟩, 0⟩]) :=
  updateTrail_capacity defaultConfig [⟨⟨0, 0⟩, 0⟩] ⟨1, 1⟩ 5 (by simp)

theorem mem_trailAddPhase (trail : List Sample) (p : Point) (now : ℚ)
    (s : Sample) (hs : s ∈ trailAddPhase trail p now) :
    s ∈ trail ∨ s = ⟨p, now⟩ := by
  rcases trailAddPhase_cases trail p now with he | ⟨k, _, he⟩
  · rw [he] at hs
    exact Or.inl hs
  · rw [he] at hs
    rcases List.mem_append.1 (List.drop_subset k _ hs) with h | h
    · exact Or.inl h
    · exact Or.inr (List.mem_singleton.1 h)

theorem trailAddPhase_pairwise (trail : List Sample) (p : Point) (now : ℚ)
    (hp : List.Pairwise (fun a b : Sample => a.t ≤ b.t) trail)
    (hn : ∀ s ∈ trail, s.t ≤ now) :
    List.Pairwise (fun a b : Sample => a.t ≤ b.t)
      (trailAddPhase trail p now) := by
  have happ : List.Pairwise (fun a b : Sample => a.t ≤ b.t)
      (trail ++ [(⟨p, now⟩ : Sample)]) := by
    refine List.pairwise_append.2 ⟨hp, List.pairwise_singleton .., ?_⟩
    intro a ha b hb
    rw [List.mem_singleton] at hb
    subst hb
    exact hn a ha
  rcases trailAddPhase_cases trail p now with he | ⟨k, _, he⟩
  · rw [he]
    exact hp
  · rw [he]
    exact happ.sublist (List.drop_sublist _ _)

/-- C2 counterexample: with the default `fadeDurationMs = 50`, a sample of
real-valued age 100.5 ms survives the eviction pass (its truncated integer
millisecond age 100 is not greater than `fade + 50 = 100`), yet
`now - timestamp = 100.5 > fade + 50`; so the claimed bound
`now - timestamp ≤ fadeDurationMs + 50` fails for sub-millisecond ages. -/
theorem updateTrail_age_counterexample :
    (⟨⟨0, 0⟩, 0⟩ : Sample)
        ∈ updateTrail defaultConfig [⟨⟨0, 0⟩, 0⟩] ⟨0, 0⟩ (201 / 2) ∧
      defaultConfig.fade + 50 < 201 / 2 - (⟨⟨0, 0⟩, 0⟩ : Sample).t := by
  constructor
  · norm_num [updateTrail, trailAddPhase, shouldAdd, sqDist, evictOld, truncQ,
      defaultConfig]
  · norm_num [defaultConfig]

/-- C2 (amended): under the documented buffer invariant (non-decreasing
timestamps, none in the future), every
sample remaining after `UpdateTrail` satisfies the truncated-age bound
`truncMs(now - timestamp) ≤ fadeDurationMs + 50`, i.e.
`now - timestamp < fadeDurationMs + 51`; the sub-millisecond remainder may
exceed `fadeDurationMs + 50` by up to one millisecond. -/
theorem updateTrail_age_bound (cfg : Config) (trail : List Sample)
    (p : Point) (now : ℚ)
    (hp : List.Pairwise (fun a b : Sample => a.t ≤ b.t) trail)
    (hn : ∀ s ∈ trail, s.t ≤ now) :
    ∀ s ∈ updateTrail cfg trail p now, now - s.t < cfg.fade + 51 := by
  intro s hs
  have hp2 : List.Pairwise (fun a b : Sample => a.t ≤ b.t)
      (trailAddPhase trail p now) := trailAddPhase_pairwise trail p now hp hn
  have hn2 : ∀ x ∈ trailAddPhase trail p now, x.t ≤ now := by
    intro x hx
    rcases mem_trailAddPhase trail p now x hx with h | rfl
    · exact hn x h
    · exact le_refl now
  rcases evictOld_cases cfg now (trailAddPhase trail p now) with he |
      ⟨f, rest, he, hcond⟩
  · rw [updateTrail, he] at hs
    exact absurd hs (List.not_mem_nil s)
  · rw [updateTrail, he] at hs
    have hsuf : f :: rest <:+ trailAddPhase trail p now := by
      rw [← he]
      exact evictOld_suffix cfg now _
    have hfm : f ∈ trailAddPhase trail p now :=
      hsuf.subset (List.mem_cons_self f rest)
    have hfn : f.t ≤ now := hn2 f hfm
    have hps : List.Pairwise (fun a b : Sample => a.t ≤ b.t) (f :: rest) :=
      hp2.sublist hsuf.sublist
    have hft : f.t ≤ s.t := by
      rcases List.mem_cons.1 hs with rfl | hsr
      · exact le_refl _
      · exact (List.pairwise_cons.1 hps).1 s hsr
    have h0 : 0 ≤ now - f.t := by linarith
    have hle : (truncQ (now - f.t) : ℚ) ≤ cfg.fade + 50 := not_lt.1 hcond
    rw [truncQ, if_pos h0] at hle
    have hfl : now - f.t < (⌊now - f.t⌋ : ℚ) + 1 := Int.lt_floor_add_one _
    linarith

/-- C2 (amended) witness at a concrete singleton trail, instantiated at the
surviving sample. -/
theorem updateTrail_age_bound_witness :
    (10 : ℚ) - (⟨⟨0, 0⟩, 0⟩ : Sample).t < defaultConfig.fade + 51 :=
  updateTrail_age_bound defaultConfig [⟨⟨0, 0⟩, 0⟩] ⟨0, 0⟩ 10
    (List.pairwise_singleton ..)
    (by intro s hs; rw [List.mem_singleton] at hs; subst hs; norm_num)
    ⟨⟨0, 0⟩, 0⟩
    (by norm_num [updateTrail, trailAddPhase, shouldAdd, sqDist, evictOld,
      truncQ, defaultConfig])

/-- C4 counterexample: on a tick where the pointer is hidden
(`visible = false`), the main loop has already called `UpdateTrail` with the
sampled position (line 550), so a moved position is still appended — the
hidden-tick buffer update is not a pure eviction pass. Here the hidden tick
grows the one-sample trail to two samples. -/
theorem tickTrail_hidden_counterexample :
    tickTrail defaultConfig [⟨⟨0, 0⟩, 0⟩] ⟨5, 0⟩ false 1 1
        = [⟨⟨0, 0⟩, 0⟩, ⟨⟨5, 0⟩, 1⟩] ∧
      (⟨⟨5, 0⟩, 1⟩ : Sample) ∉ ([⟨⟨0, 0⟩, 0⟩] : List Sample) := by
  constructor
  · norm_num [tickTrail, updateTrail, trailAddPhase, shouldAdd, sqDist,
      evictOld, truncQ, defaultConfig, kMaxTrailSize]
  · norm_num

/-- C4 (amended): a hidden-pointer tick performs the regular `UpdateTrail`
(so a sample may still be appended) followed by an additional front-eviction
pass; the trail is only ever modified by appending the fresh sample at the
back and removing entries from the front, preserving insertion order. -/
theorem tickTrail_hidden_amended (cfg : Config) (trail : List Sample)
    (p : Point) (tNow tEvict : ℚ) :
    tickTrail cfg trail p false tNow tEvict
        = evictOld cfg tEvict (updateTrail cfg trail p tNow) ∧
      (tickTrail cfg trail p false tNow tEvict
          <:+ trail ++ [(⟨p, tNow⟩ : Sample)] ∨
        tickTrail cfg trail p false tNow tEvict <:+ trail) := by
  refine ⟨rfl, ?_⟩
  have hsuf : tickTrail cfg trail p false tNow tEvict
      <:+ trailAddPhase trail p tNow :=
    (evictOld_suffix cfg tEvict _).trans (evictOld_suffix cfg tNow _)
  rcases trailAddPhase_cases trail p tNow with he | ⟨k, _, he⟩
  · right
    rw [he] at hsuf
    exact hsuf
  · left
    rw [he] at hsuf
    exact hsuf.trans (List.drop_suffix k _)

/-- C10: when the glyph identity changed but `GetIconInfo` fails,
`RefreshCursorVisual` still records the new handle while width, height and
hotspot keep their previous values, and no further refresh is attempted
while the identity stays the same — any later call with the same handle is a
no-op whatever the OS would answer. -/
theorem refreshCursorVisual_failure (cv : CursorVisual) (hC : ℕ)
    (hne : hC ≠ cv.hCur) :
    refreshCursorVisual cv hC none
        = { hCur := hC, width := cv.width, height := cv.height,
            hotX := cv.hotX, hotY := cv.hotY } ∧
      ∀ q, refreshCursorVisual (refreshCursorVisual cv hC none) hC q
          = refreshCursorVisual cv hC none := by
  have h1 : refreshCursorVisual cv hC none = { cv with hCur := hC } := by
    rw [refreshCursorVisual.eq_def, if_neg hne]
  refine ⟨h1, fun q => ?_⟩
  rw [h1, refreshCursorVisual.eq_def, if_pos rfl]

/-- C10 witness at a concrete cursor visual. -/
theorem refreshCursorVisual_failure_witness :
    refreshCursorVisual ⟨1, 32, 32, 3, 4⟩ 2 none
        = { hCur := 2, width := 32, height := 32, hotX := 3, hotY := 4 } ∧
      ∀ q, refreshCursorVisual (refreshCursorVisual ⟨1, 32, 32, 3, 4⟩ 2 none) 2 q
          = refreshCursorVisual ⟨1, 32, 32, 3, 4⟩ 2 none :=
  refreshCursorVisual_failure ⟨1, 32, 32, 3, 4⟩ 2 (by norm_num)

/-- C8: the tint transform multiplies each color channel by the matching
tint channel over 255 and never writes the alpha byte; tint (255,255,255) is
the identity on every pixel (and on a whole surface), tint (0,0,0) zeroes
the color channels and preserves alpha. -/
theorem tintPixel_formula (tr tg tb : ℕ) (p : Pixel) (px : List Pixel) :
    ((tintPixel tr tg tb p).r = p.r * tr / 255 ∧
      (tintPixel tr tg tb p).g = p.g * tg / 255 ∧
      (tintPixel tr tg tb p).b = p.b * tb / 255 ∧
      (tintPixel tr tg tb p).a = p.a) ∧
    tintPixel 255 255 255 p = p ∧
    tintSurface 255 255 255 px = px ∧
    tintPixel 0 0 0 p = ⟨0, 0, 0, p.a⟩ := by
  have hid : ∀ q : Pixel, tintPixel 255 255 255 q = q := by
    intro q
    cases q with
    | mk b g r a =>
      simp only [tintPixel]
      congr 1 <;> exact Nat.mul_div_cancel _ (by norm_num)
  refine ⟨⟨rfl, rfl, rfl, rfl⟩, hid p, ?_, ?_⟩
  · rw [tintSurface, show tintPixel 255 255 255 = id from funext hid,
      List.map_id]
  · simp [tintPixel]

theorem tintCacheStep_snd (c : TintCache) (cv : CursorVisual) (ok : Bool) :
    (tintCacheStep c cv ok).2 = needRebuild c cv := by
  rw [tintCacheStep]
  split
  · rename_i h
    exact h.symm
  · rename_i h
    rw [Bool.not_eq_true] at h
    exact h.symm

theorem needRebuild_eq (c : TintCache) (cv : CursorVisual) :
    needRebuild c cv = (!c.valid || specCacheKeyDiffers c cv) := by
  rw [needRebuild, specCacheKeyDiffers]
  cases c.valid <;> simp [Bool.or_assoc]

theorem countRebuilds_of_clean (cv : CursorVisual) (n : ℕ) :
    ∀ c : TintCache, needRebuild c cv = false → countRebuilds c cv n = 0 := by
  induction n with
  | zero => intro c _; rfl
  | succ n ih =>
    intro c h
    have hstep : tintCacheStep c cv true = (c, false) := by
      rw [tintCacheStep, if_neg (by rw [h]; exact Bool.false_ne_true)]
    simp only [countRebuilds, hstep]
    simpa using ih c h

/-- C7 counterexample: after a frame-transient rebuild failure
(`CreateDIBSection` returned null at lines 263-265), the key statics already
hold the live glyph key (lines 244-246) while `sTintBMP` is null; the next
`DrawTrail` call re-enters the rebuild branch although neither the glyph
identity nor its dimensions differ from the cached key — refuting
"rebuilt if and only if the key differs". -/
theorem tintCache_rebuild_counterexample :
    (tintCacheStep ⟨false, 7, 32, 32⟩ ⟨7, 32, 32, 0, 0⟩ true).2 = true ∧
      specCacheKeyDiffers ⟨false, 7, 32, 32⟩ ⟨7, 32, 32, 0, 0⟩ = false := by
  exact ⟨by decide, by decide⟩

/-- C7 (amended): the rebuild branch is entered exactly when the cache is
invalid (no bitmap held — initial state or a failed previous rebuild) or the
glyph identity / dimensions differ from the cached key; with successful
allocations an identical glyph across 100 consecutive `DrawTrail` calls from
the initial state triggers exactly one rebuild, on the first call. -/
theorem tintCache_rebuild_iff (c : TintCache) (cv : CursorVisual) (ok : Bool) :
    ((tintCacheStep c cv ok).2 = true ↔
        (c.valid = false ∨ specCacheKeyDiffers c cv = true)) ∧
    countRebuilds initialTintCache cv 100 = 1 ∧
    (tintCacheStep initialTintCache cv true).2 = true := by
  have hstep1 : tintCacheStep initialTintCache cv true
      = (⟨true, cv.hCur, cv.width, cv.height⟩, true) := by
    rw [tintCacheStep, if_pos]
    rw [needRebuild_eq]
    simp [initialTintCache]
  have hclean : needRebuild ⟨true, cv.hCur, cv.width, cv.height⟩ cv = false := by
    simp [needRebuild]
  refine ⟨?_, ?_, by rw [hstep1]⟩
  · rw [tintCacheStep_snd, needRebuild_eq]
    cases hv : c.valid <;> cases hk : specCacheKeyDiffers c cv <;> simp
  · rw [countRebuilds, hstep1]
    simp only []
    rw [countRebuilds_of_clean cv 99 _ hclean]
    rfl

/-- C5 (code-bug evaluation): on the three-sample trail `trailX` both
adjacent pairs are rendered, and the full blend sequence issues every blend
of pair 1 (the newest pair, `trail[1]-trail[2]`) before every blend of
pair 0 (the older pair): the outer loop of lines 291-292 runs `i` from
`size-2` down to `0`, newest pair first, although the comment above it says
"Draw samples in order from oldest to newest" and the spec requires newer
pairs to be blended after older ones so they paint on top. -/
theorem drawTrail_newest_pair_first :
    (drawTrailBlends cfgX cvX vsX trailX 0 fsqrtX).map (fun e => e.1)
      = [1, 1, 1, 1, 1, 1, 0, 0, 0, 0, 0, 0] := by
  norm_num [drawTrailBlends, drawPair, stepBlend, stepAlphaQ, fadeQ, speedQ,
    clampQ, truncQ, lroundQ, listFlat, pairAge0, pairDistSq, pairSteps,
    cfgX, cvX, vsX, trailX, fsqrtX, List.range_succ, List.filterMap]

theorem mem_drawPair (cfg : Config) (cv : CursorVisual) (vs : Rect)
    (s0 s1 : Sample) (now : ℚ) (fsqrt : ℚ → ℚ) (j : ℕ) (b : Blend)
    (hage : pairAge0 s0 now ≤ cfg.fade)
    (hd : 1 ≤ pairDistSq s0 s1) :
    (j, b) ∈ drawPair cfg cv vs s0 s1 now fsqrt ↔
      j ≤ pairSteps s0 s1 fsqrt ∧
        stepBlend cfg cv vs s0 ((s1.pt.x : ℚ) - (s0.pt.x : ℚ))
          ((s1.pt.y : ℚ) - (s0.pt.y : ℚ)) (fsqrt (pairDistSq s0 s1))
          (pairSteps s0 s1 fsqrt) (pairAge0 s0 now) j = some b := by
  rw [drawPair, if_neg (not_lt.2 hage), if_neg (not_lt.2 hd),
    List.mem_filterMap]
  constructor
  · rintro ⟨a, ha, hfa⟩
    rw [Option.map_eq_some'] at hfa
    obtain ⟨b', hb', heq⟩ := hfa
    simp only [Prod.mk.injEq] at heq
    obtain ⟨rfl, rfl⟩ := heq
    rw [List.mem_reverse, List.mem_range] at ha
    exact ⟨by omega, hb'⟩
  · rintro ⟨hj, hb⟩
    refine ⟨j, ?_, ?_⟩
    · rw [List.mem_reverse, List.mem_range]
      omega
    · rw [hb]
      rfl

theorem stepBlend_eq_some (cfg : Config) (cv : CursorVisual) (vs : Rect)
    (s0 : Sample) (dx dy dist : ℚ) (steps : ℕ) (age0 : ℚ) (j : ℕ)
    (b : Blend) :
    stepBlend cfg cv vs s0 dx dy dist steps age0 j = some b ↔
      3 ≤ ⌊stepAlphaQ cfg dist age0 ((j : ℚ) * (1 / (steps : ℚ)))⌋ ∧
        b = { dstX := lroundQ ((s0.pt.x : ℚ)
                  + dx * ((j : ℚ) * (1 / (steps : ℚ)))) - vs.left - cv.hotX,
              dstY := lroundQ ((s0.pt.y : ℚ)
                  + dy * ((j : ℚ) * (1 / (steps : ℚ)))) - vs.top - cv.hotY,
              w := cv.width, h := cv.height,
              alpha := ⌊stepAlphaQ cfg dist age0
                  ((j : ℚ) * (1 / (steps : ℚ)))⌋ } := by
  simp only [stepBlend]
  split
  · rename_i h
    simp only [(by simp : (none : Option Blend) = some b ↔ False), false_iff]
    rintro ⟨h3, _⟩
    omega
  · rename_i h
    rw [Option.some.injEq]
    constructor
    · intro he
      exact ⟨by omega, he.symm⟩
    · rintro ⟨_, rfl⟩
      rfl

/-- C6: for every interpolation step `j` of a rendered sample pair, a blend
call is issued if and only if the clamped real-valued alpha
`clamp(maxAlpha * fade * speedFactor, 0, 255)` is at least 3, and the issued
blend carries exactly the truncated BYTE of that alpha; a step whose `fade`
or `speedFactor` is 0 has alpha 0 and issues no blend call. -/
theorem drawPair_alpha_gate (cfg : Config) (cv : CursorVisual) (vs : Rect)
    (s0 s1 : Sample) (now : ℚ) (fsqrt : ℚ → ℚ) (j : ℕ)
    (hage : pairAge0 s0 now ≤ cfg.fade)
    (hd : 1 ≤ pairDistSq s0 s1)
    (hj : j ≤ pairSteps s0 s1 fsqrt) :
    ((∃ b, (j, b) ∈ drawPair cfg cv vs s0 s1 now fsqrt) ↔
        3 ≤ stepAlphaQ cfg (fsqrt (pairDistSq s0 s1)) (pairAge0 s0 now)
            ((j : ℚ) * (1 / (pairSteps s0 s1 fsqrt : ℚ)))) ∧
      (∀ b, (j, b) ∈ drawPair cfg cv vs s0 s1 now fsqrt →
        b.alpha = ⌊stepAlphaQ cfg (fsqrt (pairDistSq s0 s1)) (pairAge0 s0 now)
            ((j : ℚ) * (1 / (pairSteps s0 s1 fsqrt : ℚ)))⌋) ∧
      ((fadeQ cfg (pairAge0 s0 now)
            ((j : ℚ) * (1 / (pairSteps s0 s1 fsqrt : ℚ))) = 0 ∨
          speedQ cfg (fsqrt (pairDistSq s0 s1)) = 0) →
        stepAlphaQ cfg (fsqrt (pairDistSq s0 s1)) (pairAge0 s0 now)
            ((j : ℚ) * (1 / (pairSteps s0 s1 fsqrt : ℚ))) = 0 ∧
          ¬ ∃ b, (j, b) ∈ drawPair cfg cv vs s0 s1 now fsqrt) := by
  have hfloor : ∀ q : ℚ, 3 ≤ ⌊q⌋ ↔ (3 : ℚ) ≤ q := by
    intro q
    rw [show (3 : ℤ) = ((3 : ℕ) : ℤ) from rfl, Int.le_floor]
    norm_num
  have hiff : (∃ b, (j, b) ∈ drawPair cfg cv vs s0 s1 now fsqrt) ↔
      3 ≤ ⌊stepAlphaQ cfg (fsqrt (pairDistSq s0 s1)) (pairAge0 s0 now)
          ((j : ℚ) * (1 / (pairSteps s0 s1 fsqrt : ℚ)))⌋ := by
    constructor
    · rintro ⟨b, hb⟩
      exact ((stepBlend_eq_some cfg cv vs s0 _ _ _ _ _ j b).1
        ((mem_drawPair cfg cv vs s0 s1 now fsqrt j b hage hd).1 hb).2).1
    · intro h3
      exact ⟨_, (mem_drawPair cfg cv vs s0 s1 now fsqrt j _ hage hd).2
        ⟨hj, (stepBlend_eq_some cfg cv vs s0 _ _ _ _ _ j _).2 ⟨h3, rfl⟩⟩⟩
  refine ⟨hiff.trans (hfloor _), fun b hb => ?_, fun h0 => ?_⟩
  · have hb2 := ((stepBlend_eq_some cfg cv vs s0 _ _ _ _ _ j b).1
      ((mem_drawPair cfg cv vs s0 s1 now fsqrt j b hage hd).1 hb).2).2
    rw [hb2]
  · have hα : stepAlphaQ cfg (fsqrt (pairDistSq s0 s1)) (pairAge0 s0 now)
        ((j : ℚ) * (1 / (pairSteps s0 s1 fsqrt : ℚ))) = 0 := by
      rcases h0 with h | h <;>
        · rw [stepAlphaQ, h]
          simp [clampQ]
    refine ⟨hα, fun hex => ?_⟩
    have h3 := (hiff.trans (hfloor _)).1 hex
    rw [hα] at h3
    norm_num at h3

/-- C6 witness: the freshest step (`j = steps = 5`) of the newest pair of
`trailX` at `now = 0`, where fade is 1, speedFactor is 1 and alpha is 255. -/
theorem drawPair_alpha_gate_witness :
    ((∃ b, (5, b) ∈ drawPair cfgX cvX vsX ⟨⟨0, 0⟩, 0⟩ ⟨⟨3, 4⟩, 0⟩ 0 fsqrtX) ↔
        3 ≤ stepAlphaQ cfgX (fsqrtX (pairDistSq ⟨⟨0, 0⟩, 0⟩ ⟨⟨3, 4⟩, 0⟩))
            (pairAge0 ⟨⟨0, 0⟩, 0⟩ 0)
            ((5 : ℚ) * (1 / (pairSteps ⟨⟨0, 0⟩, 0⟩ ⟨⟨3, 4⟩, 0⟩ fsqrtX : ℚ)))) ∧
      (∀ b, (5, b) ∈ drawPair cfgX cvX vsX ⟨⟨0, 0⟩, 0⟩ ⟨⟨3, 4⟩, 0⟩ 0 fsqrtX →
        b.alpha = ⌊stepAlphaQ cfgX (fsqrtX (pairDistSq ⟨⟨0, 0⟩, 0⟩ ⟨⟨3, 4⟩, 0⟩))
            (pairAge0 ⟨⟨0, 0⟩, 0⟩ 0)
            ((5 : ℚ) * (1 / (pairSteps ⟨⟨0, 0⟩, 0⟩ ⟨⟨3, 4⟩, 0⟩ fsqrtX : ℚ)))⌋) ∧
      ((fadeQ cfgX (pairAge0 ⟨⟨0, 0⟩, 0⟩ 0)
            ((5 : ℚ) * (1 / (pairSteps ⟨⟨0, 0⟩, 0⟩ ⟨⟨3, 4⟩, 0⟩ fsqrtX : ℚ))) = 0 ∨
          speedQ cfgX (fsqrtX (pairDistSq ⟨⟨0, 0⟩, 0⟩ ⟨⟨3, 4⟩, 0⟩)) = 0) →
        stepAlphaQ cfgX (fsqrtX (pairDistSq ⟨⟨0, 0⟩, 0⟩ ⟨⟨3, 4⟩, 0⟩))
            (pairAge0 ⟨⟨0, 0⟩, 0⟩ 0)
            ((5 : ℚ) * (1 / (pairSteps ⟨⟨0, 0⟩, 0⟩ ⟨⟨3, 4⟩, 0⟩ fsqrtX : ℚ))) = 0 ∧
          ¬ ∃ b, (5, b) ∈ drawPair cfgX cvX vsX ⟨⟨0, 0⟩, 0⟩ ⟨⟨3, 4⟩, 0⟩ 0 fsqrtX) :=
  drawPair_alpha_gate cfgX cvX vsX ⟨⟨0, 0⟩, 0⟩ ⟨⟨3, 4⟩, 0⟩ 0 fsqrtX 5
    (by norm_num [pairAge0, truncQ, cfgX])
    (by norm_num [pairDistSq])
    (by norm_num [pairSteps, pairDistSq, fsqrtX])

theorem digitsVal_not_digit (c : Char) (r : List Char) (acc : ℕ)
    (h : isDigit c = false) :
    digitsVal (c :: r) acc = (acc, c :: r) := by
  rw [digitsVal, h]
  simp

theorem fracPart_zero (l : List Char)
    (h : ∀ d r, l = '.' :: d :: r → isDigit d = false) :
    fracPart l = 0 := by
  rw [fracPart.eq_def]
  split
  · rename_i r
    cases r with
    | nil => rfl
    | cons d r2 =>
      rw [fracVal, h d r2 rfl]
      simp
  · rfl

theorem wtof_wtoi_unparsable (v : List Char) (h : hasNumHead v = false) :
    wtofQ v = 0 ∧ wtoiZ v = 0 := by
  rw [hasNumHead] at h
  simp only [wtofQ, wtoiZ]
  cases hsp : (splitSign v).2 with
  | nil =>
    have hfp : fracPart ([] : List Char) = 0 := rfl
    simp only [digitsVal, hfp]
    cases hb : (splitSign v).1 <;> norm_num
  | cons c r =>
    rw [hsp] at h
    have hd : isDigit c = false := by
      cases hdc : isDigit c
      · rfl
      · simp [hdc] at h
    have hfp : fracPart (c :: r) = 0 := by
      apply fracPart_zero
      intro d r2 heq
      injection heq with h1 h2
      subst h1
      subst h2
      simpa [hd] using h
    rw [digitsVal_not_digit c r 0 hd, hfp]
    cases hb : (splitSign v).1 <;> norm_num

/-- C9 counterexample: the value `abc` for the recognized key
`sensitivity` does not leave the default 0.03 in place: `_wtof` yields 0,
which is clamped up to the range minimum 0.001. -/
theorem parse_sensitivity_counterexample :
    (applySensitivity defaultConfig ['a', 'b', 'c']).sensitivity = 1 / 1000 ∧
      defaultConfig.sensitivity = 3 / 100 ∧
      (1 / 1000 : ℚ) ≠ 3 / 100 := by
  refine ⟨?_, rfl, by norm_num⟩
  show clampQ (1 / 1000) 1 (wtofQ ['a', 'b', 'c']) = 1 / 1000
  rw [(wtof_wtoi_unparsable ['a', 'b', 'c'] (by decide)).1, clampQ]
  norm_num

/-- C9 (amended): for the numeric keys an unparsable value does not retain
the prior setting — `_wtof`/`_wtoi` return 0, which the clamp raises to the
range minimum (sensitivity 0.001, fade 1, alpha 1); only the `color` key
leaves the prior tint unchanged when the hex value is unparsable. -/
theorem parse_malformed_min (cfg : Config) (v : List Char)
    (h1 : hasNumHead v = false)
    (h2 : whexNat (stripHash v) = none) :
    (applySensitivity cfg v).sensitivity = 1 / 1000 ∧
      (applyFade cfg v).fade = 1 ∧
      (applyAlpha cfg v).maxAlpha = 1 ∧
      applyColor cfg v = cfg := by
  obtain ⟨hf, hi⟩ := wtof_wtoi_unparsable v h1
  refine ⟨?_, ?_, ?_, ?_⟩
  · show clampQ (1 / 1000) 1 (wtofQ v) = 1 / 1000
    rw [hf, clampQ]
    norm_num
  · show clampQ 1 1000 (wtofQ v) = 1
    rw [hf, clampQ]
    norm_num
  · show (min 255 (max 1 (wtoiZ v))).toNat = 1
    rw [hi]
    norm_num
  · rw [applyColor.eq_def, h2]

/-- C9 (amended) witness on the unparsable value `zz` (not a decimal number
and not a hex digit run). -/
theorem parse_malformed_min_witness :
    (applySensitivity defaultConfig ['z', 'z']).sensitivity = 1 / 1000 ∧
      (applyFade defaultConfig ['z', 'z']).fade = 1 ∧
      (applyAlpha defaultConfig ['z', 'z']).maxAlpha = 1 ∧
      applyColor defaultConfig ['z', 'z'] = defaultConfig :=
  parse_malformed_min defaultConfig ['z', 'z'] (by decide) (by decide)

end CursorBlur

